import Mathlib

/-!
Shallow embedding of the `esprober` repository (files `esprober.py` and
`prober.py`) and proofs about its probe-and-record loop, result ledger,
stats aggregation and query loading.

Modelling conventions:
* Python floats are modelled as rationals (`ℚ`); the spec's "within
  floating-point tolerance" clauses become exact equalities over `ℚ`.
* The executor (`Query.send` / `search`), which performs network I/O, is
  abstracted as an oracle `exec : ℕ → Option (String × ℚ)` giving, for the
  k-th dispatched query, `some (timestamp, duration)` on success and `none`
  when the call raises — matching the spec's view of the executor as an
  opaque "execute query, return success/failure and elapsed time" capability.
* `time.monotonic()` readings are an oracle `clock : ℕ → ℚ`.
* Python dicts keyed by query name are association lists; indexing a missing
  key (Python `KeyError`) is modelled by `Option`/`Except` results.
-/

set_option autoImplicit false

/-- JSON-like values, for query payloads and the query-definition document. -/
inductive Json where
  | null
  | bool (b : Bool)
  | num (q : ℚ)
  | str (s : String)
  | arr (items : List Json)
  | obj (fields : List (String × Json))

namespace Esprober

/-- `esprober.Query` (name, path, opaque body). -/
structure Query where
  name : String
  path : String
  body : Json

/-- `esprober.QueryResult` (timestamp, name, duration). -/
structure QueryResult where
  timestamp : String
  name : String
  duration : ℚ
deriving DecidableEq, Repr

/-- `QUERY_INTERVAL = max(1., float(env or 60.))`. -/
def queryInterval (env : Option ℚ) : ℚ := max 1 (env.getD 60)

/-- `TEST_DURATION = max(0., float(env or 0.)) or None`. -/
def testDuration (env : Option ℚ) : Option ℚ :=
  let v := max 0 (env.getD 0)
  if v = 0 then none else some v

/-- `esprober.average`: `0.` on the empty list, else `sum / len`. -/
def average (durations : List ℚ) : ℚ :=
  if durations = [] then 0 else durations.sum / durations.length

/-! ## Query loading (`load_queries`)

The query-definition source is either a missing file (`open` raises
`FileNotFoundError`), a file whose text does not parse (`json.load`
raises), or a parsed JSON document.  The comprehension
`[Query(**d) for d in json.load(f)]` iterates the document: a JSON array
yields its elements, a JSON object yields its keys (strings), a JSON
string yields its one-character substrings, and numbers, booleans and
`null` are not iterable (`TypeError`) — so the empty object `{}` and the
empty string load successfully as zero queries.  `Query(**d)` requires the
element to be a mapping with exactly the keys `name`, `path`, `body` (a
missing or extra key raises `TypeError`) but performs no runtime check on
the values — dataclass annotations are not enforced — so the loaded
queries keep all three field values as JSON. -/

/-- What `Query(**d)` actually constructs: the three fields bound to
arbitrary JSON values, with no runtime type (or emptiness) checking.  The
rest of the development models the well-typed queries the program is
operated with, per the dataclass annotations. -/
structure RawQuery where
  name : Json
  path : Json
  body : Json

/-- The three states of the query-definition source seen by `load_queries`. -/
inductive QuerySource where
  | missing
  | malformed
  | parsed (doc : Json)

/-- Field lookup in a JSON object (the keys of a parsed object are
distinct, `json.load` keeping the last duplicate). -/
def lookupField (key : String) : List (String × Json) → Option Json
  | [] => none
  | (k, v) :: rest => if k = key then some v else lookupField key rest

/-- `Query(**d)` on one JSON object: succeeds exactly when the object has
the keys `name`, `path`, `body` and no others; the values are unchecked. -/
def parseQueryObj (fields : List (String × Json)) : Except String RawQuery :=
  match lookupField "name" fields, lookupField "path" fields,
        lookupField "body" fields with
  | some n, some p, some b =>
      if fields.length = 3 then .ok ⟨n, p, b⟩
      else .error "TypeError: unexpected keyword argument"
  | _, _, _ => .error "TypeError: missing required argument"

/-- `[Query(**d) for d in ...]`: left-to-right, first failure raises; an
element that is not a mapping makes `Query(**d)` raise `TypeError`. -/
def loadItems : List Json → Except String (List RawQuery)
  | [] => .ok []
  | .obj fields :: rest =>
      match parseQueryObj fields with
      | .error e => .error e
      | .ok q => (loadItems rest).map (fun qs => q :: qs)
  | _ :: _ => .error "TypeError: argument after ** must be a mapping"

/-- `esprober.load_queries`: `open` + `json.load` + the comprehension.
An array yields its elements; an object yields its keys; a string yields
its one-character substrings; numbers, booleans and `null` raise
`TypeError: object is not iterable`. -/
def load_queries : QuerySource → Except String (List RawQuery)
  | .missing => .error "FileNotFoundError"
  | .malformed => .error "json.JSONDecodeError"
  | .parsed (.arr items) => loadItems items
  | .parsed (.obj fields) => loadItems (fields.map (fun p => Json.str p.1))
  | .parsed (.str s) => loadItems (s.data.map (fun c => Json.str (String.mk [c])))
  | .parsed _ => .error "TypeError: object is not iterable"

/-- JSON encoding of a query object with fields in declaration order. -/
def encodeRawQuery (q : RawQuery) : Json :=
  .obj [("name", q.name), ("path", q.path), ("body", q.body)]

/-! ## Result ledger (`read_results` / `write_results`)

The CSV file is modelled at the row level: a row is either the header line
`timestamp,name,duration` or a data row whose third field is a number (the
header's third field is the non-numeric word `duration`, so the two row
kinds are distinguishable exactly as they are in the real file).  A file is
`Option (List FileRow)`: `none` when the file does not exist. -/

/-- One line of the results CSV file. -/
inductive FileRow where
  | header
  | data (timestamp : String) (name : String) (duration : ℚ)
deriving DecidableEq, Repr

/-- The data row `csv.DictWriter.writerow(dataclasses.asdict(r))` produces. -/
def toRow (r : QueryResult) : FileRow :=
  .data r.timestamp r.name r.duration

/-- Parsing of the rows after the header by `csv.DictReader` plus
`float(row["duration"])`; a header-shaped line makes `float` raise. -/
def readRows : List FileRow → Except String (List QueryResult)
  | [] => .ok []
  | .header :: _ => .error "ValueError: could not convert string to float"
  | .data ts n d :: rest => (readRows rest).map (fun rs => ⟨ts, n, d⟩ :: rs)

/-- `esprober.read_results`.  A nonexistent file yields no rows
(`os.path.isfile` guard).  `csv.DictReader` consumes the first line as the
field names; if that line is a data row, looking up `row["timestamp"]` in
the subsequent rows raises `KeyError` (data cells are assumed not to spell
the header's field names, which holds for every row this program writes). -/
def read_results : Option (List FileRow) → Except String (List QueryResult)
  | none => .ok []
  | some [] => .ok []
  | some (.header :: rest) => readRows rest
  | some (.data _ _ _ :: rest) =>
      if rest.isEmpty then .ok [] else .error "KeyError: timestamp"

/-- `esprober.write_results` applied to an already-materialised result list:
`write_header = not os.path.isfile(filename)`; the file is opened in append
mode (created if absent), the header is written only in the fresh case, and
each result is appended as one row. -/
def write_results (file : Option (List FileRow)) (results : List QueryResult) :
    List FileRow :=
  file.getD [] ++ (if file.isSome then [] else [FileRow.header])
    ++ results.map toRow

/-! ## The per-name duration dictionary -/

/-- `durations: dict[str, list[float]]` as an association list. -/
abbrev DurMap := List (String × List ℚ)

/-- Dictionary read `durations[name]` (`none` models `KeyError`). -/
def findDur : DurMap → String → Option (List ℚ)
  | [], _ => none
  | (n, ds) :: rest, name => if n = name then some ds else findDur rest name

/-- Dictionary update `durations[name].append(d)` (`none` models `KeyError`). -/
def appendDur : DurMap → String → ℚ → Option DurMap
  | [], _, _ => none
  | (n, ds) :: rest, name, d =>
      if n = name then some ((n, ds ++ [d]) :: rest)
      else (appendDur rest name d).map (fun m => (n, ds) :: m)

/-- `{q.name: [] for q in queries}` (first occurrence wins; rebinding an
existing key to `[]` again is indistinguishable through `findDur`). -/
def initMap (queries : List Query) : DurMap :=
  queries.map (fun q => (q.name, ([] : List ℚ)))

/-- Recording a list of results into the dictionary, in order; the first
missing key aborts (`KeyError`). -/
def appendResults (m : DurMap) : List QueryResult → Option DurMap
  | [] => some m
  | r :: rs =>
      match appendDur m r.name r.duration with
      | none => none
      | some m1 => appendResults m1 rs

/-- The seeding loop in `esprober.main`:
`for result in read_results(...): durations[result.name].append(...)`. -/
def seedLoop (m : DurMap) : List QueryResult → Except String DurMap
  | [] => .ok m
  | r :: rs =>
      match appendDur m r.name r.duration with
      | none => .error ("KeyError: " ++ r.name)
      | some m1 => seedLoop m1 rs

/-- Building and seeding the duration dictionary in `esprober.main`. -/
def seedDurations (queries : List Query) (rows : List QueryResult) :
    Except String DurMap :=
  seedLoop (initMap queries) rows

/-! ## The probe loop of `esprober.py`

`send_queries` is a generator and `main` runs
`write_results(results_filename, send_queries(queries, durations))`, so the
generator body and the writer body interleave: per successful query the
generator appends the duration, yields the result, the writer serialises the
row and flushes, and only then does the generator resume into its `finally`
block and sleep.  `send_queries_loop` is that interleaved composition,
producing the observable event trace.  Note two source details it preserves:
the duration check `if test_deadline and time.monotonic() < test_deadline:
break` (comparison as written), and the `finally` block sleeping
`QUERY_INTERVAL` (the global `Q`) guarded by `interval > 0`. -/

/-- Observable events of a run. -/
inductive Ev where
  | header
  | dispatch (name : String)
  | fail (name : String)
  | row (r : QueryResult)
  | flush
  | sleep (q : ℚ)
  | abort
deriving DecidableEq, Repr

/-- The loop's break condition `test_deadline and time.monotonic() < test_deadline`. -/
def breakCond : Option ℚ → ℚ → Bool
  | none, _ => false
  | some d, t => decide (t < d)

/-- The `finally` block: `if interval > 0: time.sleep(QUERY_INTERVAL)`. -/
def sleepBlock (interval Q : ℚ) : List Ev :=
  if 0 < interval then [Ev.sleep Q] else []

/-- Interleaved run of `write_results` consuming `send_queries`: for each
query, check the (as-written) break condition, dispatch, and on success
append the duration, emit the row, flush, and sleep; on a raise, log and
sleep.  A `KeyError` on the duration dictionary propagates and ends the run
(second component `none`). -/
def send_queries_loop (deadline : Option ℚ) (clock : ℕ → ℚ)
    (exec : ℕ → Option (String × ℚ)) (interval Q : ℚ) :
    List Query → ℕ → DurMap → List Ev × Option DurMap
  | [], _, m => ([], some m)
  | q :: qs, k, m =>
    if breakCond deadline (clock k) then ([], some m)
    else
      match exec k with
      | none =>
          let rest := send_queries_loop deadline clock exec interval Q qs (k + 1) m
          (Ev.dispatch q.name :: Ev.fail q.name :: (sleepBlock interval Q ++ rest.1),
            rest.2)
      | some (ts, d) =>
          match appendDur m q.name d with
          | none => ([Ev.dispatch q.name], none)
          | some m1 =>
              let rest := send_queries_loop deadline clock exec interval Q qs (k + 1) m1
              (Ev.dispatch q.name :: Ev.row ⟨ts, q.name, d⟩ :: Ev.flush ::
                (sleepBlock interval Q ++ rest.1), rest.2)

/-- `esprober.main` after logging setup: seed the duration dictionary from
the results file, then run the loop; the header is written by
`write_results` before the generator is first resumed, exactly when the file
did not exist. -/
def main_run (queries : List Query) (file : Option (List FileRow))
    (deadline : Option ℚ) (clock : ℕ → ℚ) (exec : ℕ → Option (String × ℚ))
    (interval Q : ℚ) : Except String (List Ev × Option DurMap) :=
  match read_results file with
  | .error e => .error e
  | .ok rows =>
    match seedDurations queries rows with
    | .error e => .error e
    | .ok m =>
        let run := send_queries_loop deadline clock exec interval Q queries 0 m
        .ok ((if file.isSome then [] else [Ev.header]) ++ run.1, run.2)

/-! ### Trace vocabulary used by the specifications -/

/-- The queries the loop actually reaches: the longest prefix on which the
break condition stays false.  It depends only on the deadline and the clock,
never on execution outcomes. -/
def executedQueries (deadline : Option ℚ) (clock : ℕ → ℚ) :
    ℕ → List Query → List Query
  | _, [] => []
  | k, q :: qs =>
      if breakCond deadline (clock k) then []
      else q :: executedQueries deadline clock (k + 1) qs

/-- The results the successful executions among a query prefix produce. -/
def successResultsFrom (exec : ℕ → Option (String × ℚ)) :
    ℕ → List Query → List QueryResult
  | _, [] => []
  | k, q :: qs =>
      match exec k with
      | some (ts, d) => ⟨ts, q.name, d⟩ :: successResultsFrom exec (k + 1) qs
      | none => successResultsFrom exec (k + 1) qs

/-- The event block one executed query contributes. -/
def queryBlock (exec : ℕ → Option (String × ℚ)) (interval Q : ℚ) (k : ℕ)
    (q : Query) : List Ev :=
  match exec k with
  | none => Ev.dispatch q.name :: Ev.fail q.name :: sleepBlock interval Q
  | some (ts, d) =>
      Ev.dispatch q.name :: Ev.row ⟨ts, q.name, d⟩ :: Ev.flush ::
        sleepBlock interval Q

/-- The concatenated blocks of a list of executed queries. -/
def blocksFrom (exec : ℕ → Option (String × ℚ)) (interval Q : ℚ) :
    ℕ → List Query → List Ev
  | _, [] => []
  | k, q :: qs => queryBlock exec interval Q k q ++ blocksFrom exec interval Q (k + 1) qs

/-- Names dispatched in a trace, in order. -/
def executedNames (evs : List Ev) : List String :=
  evs.filterMap (fun e => match e with | Ev.dispatch n => some n | _ => none)

/-- Rows written in a trace, in order. -/
def writtenRows (evs : List Ev) : List QueryResult :=
  evs.filterMap (fun e => match e with | Ev.row r => some r | _ => none)

/-- Sleep amounts in a trace, in order. -/
def sleepsOf (evs : List Ev) : List ℚ :=
  evs.filterMap (fun e => match e with | Ev.sleep q => some q | _ => none)

/-- Every serialised row is immediately followed by a flush. -/
def rowsFlushed : List Ev → Bool
  | [] => true
  | Ev.row _ :: rest =>
      (match rest with | Ev.flush :: _ => true | _ => false) && rowsFlushed rest
  | _ :: rest => rowsFlushed rest

/-- A sleep occurs before the next dispatch (and before the trace ends). -/
def sleepSoon : List Ev → Bool
  | [] => false
  | Ev.sleep _ :: _ => true
  | Ev.dispatch _ :: _ => false
  | _ :: rest => sleepSoon rest

/-- Every dispatched query is followed by a sleep before the next dispatch
and before the end of the trace. -/
def paced : List Ev → Bool
  | [] => true
  | Ev.dispatch _ :: rest => sleepSoon rest && paced rest
  | _ :: rest => paced rest

end Esprober

namespace Prober

open Esprober (Ev)

/-- `prober.Query` (path and opaque body; the name is the `QUERIES` key). -/
structure Query where
  path : String
  body : Json

/-- The hard-coded `QUERIES` dictionary of `prober.py`, in insertion order. -/
def QUERIES : List (String × Query) :=
  [ ("service.node.name-wildcard",
      ⟨"serverless-metrics-*:apm-*,serverless-metrics-*:metrics-apm*",
        Json.obj [("query", Json.obj [("wildcard", Json.obj
          [("service.node.name", Json.obj [("value", Json.str "es-es-search*")])])])]⟩),
    ("service.node.name-term",
      ⟨"serverless-metrics-*:apm-*,serverless-metrics-*:metrics-apm*",
        Json.obj [("query", Json.obj [("term", Json.obj
          [("service.node.name", Json.obj
            [("value", Json.str "es-es-search-7c46b56686-sdtrl")])])])]⟩),
    ("kubernetes.pod.name-wildcard",
      ⟨"metrics-*,serverless-metrics-*:metrics-*",
        Json.obj [("query", Json.obj [("wildcard", Json.obj
          [("kubernetes.pod.name", Json.obj [("value", Json.str "es-*")])])])]⟩),
    ("kubernetes.pod.name-term",
      ⟨"metrics-*,serverless-metrics-*:metrics-*",
        Json.obj [("query", Json.obj [("term", Json.obj
          [("kubernetes.pod.name", Json.obj
            [("value", Json.str "es-es-index-564b5c6d45-7hldp")])])])]⟩) ]

/-- `query_names = list(QUERIES)`. -/
def query_names : List String := QUERIES.map (fun p => p.1)

/-- `prober.average`: identical to `esprober.average`. -/
def average (durations : List ℚ) : ℚ :=
  if durations = [] then 0 else durations.sum / durations.length

/-- Outcome of one `search` call in `prober.py`: a successful search with
the measured duration, an `elasticsearch` connection timeout (on which
`search` calls `exit(1)`), or any other exception (which propagates). -/
inductive POutcome where
  | ok (duration : ℚ)
  | timeout
  | failure

/-- `POutcome.isOk`. -/
def POutcome.isOk : POutcome → Bool
  | .ok _ => true
  | _ => false

/-- One sweep of `prober.main`'s inner `for` loop: dispatch each name in
order; on success append the measured duration and sleep the interval;
a timeout (`exit(1)`) or any other exception ends the process (third
component `true`), as does a `KeyError` (map component `none`). -/
def sweepRun (exec : ℕ → POutcome) (interval : ℚ) :
    List String → ℕ → Esprober.DurMap → List Ev × Option Esprober.DurMap × Bool
  | [], _, m => ([], some m, false)
  | n :: ns, k, m =>
    match exec k with
    | .ok d =>
        match Esprober.appendDur m n d with
        | none => ([Ev.dispatch n], none, true)
        | some m1 =>
            let rest := sweepRun exec interval ns (k + 1) m1
            (Ev.dispatch n :: Ev.sleep interval :: rest.1, rest.2)
    | .timeout => ([Ev.dispatch n, Ev.abort], some m, true)
    | .failure => ([Ev.dispatch n, Ev.abort], some m, true)

/-- Final status of a fuel-bounded unfolding of `prober.main`'s `while`. -/
inductive PStatus where
  | stopped
  | aborted
  | running
deriving DecidableEq, Repr

/-- `while not test_deadline or time.monotonic() < test_deadline` — the loop
stops exactly when a deadline is set and the clock has reached it. -/
def stopCond : Option ℚ → ℚ → Bool
  | none, _ => false
  | some d, t => decide (d ≤ t)

/-- Fuel-bounded unfolding of `prober.main`'s `while` loop: `fuel` bounds
the number of sweeps observed; `.running` means the loop was still going
when the fuel ran out. -/
def proberMain (exec : ℕ → POutcome) (clock : ℕ → ℚ) (deadline : Option ℚ)
    (interval : ℚ) (names : List String) :
    ℕ → ℕ → ℕ → Esprober.DurMap → List Ev × Option Esprober.DurMap × PStatus
  | 0, _, _, m => ([], some m, .running)
  | fuel + 1, j, k, m =>
    if stopCond deadline (clock j) then ([], some m, .stopped)
    else
      match sweepRun exec interval names k m with
      | (evs, some m1, false) =>
          let rest := proberMain exec clock deadline interval names fuel (j + 1)
            (k + names.length) m1
          (evs ++ rest.1, rest.2)
      | (evs, om, _) => (evs, om, .aborted)

/-- The events of one all-successful sweep. -/
def okSweepEvents (interval : ℚ) : List String → List Ev
  | [] => []
  | n :: ns => Ev.dispatch n :: Ev.sleep interval :: okSweepEvents interval ns

/-- The events of `s` consecutive all-successful sweeps. -/
def okRunEvents (interval : ℚ) (names : List String) : ℕ → List Ev
  | 0 => []
  | s + 1 => okSweepEvents interval names ++ okRunEvents interval names s

/-- A list repeated `s` times. -/
def repeatList {α : Type} (l : List α) : ℕ → List α
  | 0 => []
  | s + 1 => l ++ repeatList l s

end Prober

/-! ## Lemmas about the duration dictionary -/

namespace Esprober

theorem appendDur_isSome {m : DurMap} {name : String}
    (h : (findDur m name).isSome = true) (d : ℚ) :
    ∃ m1, appendDur m name d = some m1 := by
  induction m with
  | nil => simp [findDur] at h
  | cons p rest ih =>
    obtain ⟨n, ds⟩ := p
    by_cases hn : n = name
    · exact ⟨(n, ds ++ [d]) :: rest, by simp [appendDur, hn]⟩
    · simp only [findDur, if_neg hn] at h
      obtain ⟨m1, hm1⟩ := ih h
      exact ⟨(n, ds) :: m1, by simp [appendDur, hn, hm1]⟩

theorem appendDur_eq_none {m : DurMap} {name : String}
    (h : (findDur m name).isSome = false) (d : ℚ) :
    appendDur m name d = none := by
  induction m with
  | nil => rfl
  | cons p rest ih =>
    obtain ⟨n, ds⟩ := p
    by_cases hn : n = name
    · simp [findDur, hn] at h
    · simp only [findDur, if_neg hn] at h
      simp [appendDur, hn, ih h]

theorem findDur_appendDur_pres {m m1 : DurMap} {name : String} {d : ℚ}
    (h : appendDur m name d = some m1) :
    ∀ n, (findDur m1 n).isSome = (findDur m n).isSome := by
  induction m generalizing m1 with
  | nil => simp [appendDur] at h
  | cons p rest ih =>
    obtain ⟨n0, ds⟩ := p
    by_cases hn : n0 = name
    · simp only [appendDur, if_pos hn, Option.some.injEq] at h
      subst h
      intro n
      by_cases h2 : n0 = n <;> simp [findDur, h2]
    · simp only [appendDur, if_neg hn, Option.map_eq_some'] at h
      obtain ⟨mr, hmr, hm1⟩ := h
      subst hm1
      intro n
      by_cases h2 : n0 = n <;> simp [findDur, h2, ih hmr]

theorem findDur_initMap (queries : List Query) :
    ∀ n, (findDur (initMap queries) n).isSome = true ↔ n ∈ queries.map Query.name := by
  induction queries with
  | nil => intro n; simp [initMap, findDur]
  | cons q qs ih =>
    intro n
    by_cases h : q.name = n
    · simp [initMap, findDur, h]
    · simpa [initMap, findDur, h, Ne.symm h] using ih n

theorem seedLoop_ok :
    ∀ (rows : List QueryResult) (m : DurMap),
      (∀ r ∈ rows, (findDur m r.name).isSome = true) →
      ∃ m2, seedLoop m rows = .ok m2 := by
  intro rows
  induction rows with
  | nil => intro m _; exact ⟨m, rfl⟩
  | cons r rs ih =>
    intro m h
    obtain ⟨m1, hm1⟩ := appendDur_isSome (h r (List.mem_cons_self r rs)) r.duration
    obtain ⟨m2, hm2⟩ := ih m1 (fun r' hr' => by
      rw [findDur_appendDur_pres hm1]
      exact h r' (List.mem_cons_of_mem r hr'))
    exact ⟨m2, by simp [seedLoop, hm1, hm2]⟩

theorem seedLoop_err :
    ∀ (rows : List QueryResult) (m : DurMap),
      (∃ r ∈ rows, (findDur m r.name).isSome = false) →
      ∃ e, seedLoop m rows = .error e := by
  intro rows
  induction rows with
  | nil => intro m h; simp at h
  | cons r rs ih =>
    intro m h
    cases hk : (findDur m r.name).isSome with
    | false =>
      exact ⟨"KeyError: " ++ r.name, by simp [seedLoop, appendDur_eq_none hk r.duration]⟩
    | true =>
      obtain ⟨m1, hm1⟩ := appendDur_isSome hk r.duration
      obtain ⟨r', hr', hbad⟩ := h
      rcases List.mem_cons.mp hr' with rfl | hr'
      · rw [hk] at hbad; cases hbad
      · obtain ⟨e, he⟩ := ih m1 ⟨r', hr', by rw [findDur_appendDur_pres hm1]; exact hbad⟩
        exact ⟨e, by simp [seedLoop, hm1, he]⟩

/-! ## Lemmas about the event-trace predicates -/

theorem rowsFlushed_dispatch (n : String) (rest : List Ev) :
    rowsFlushed (Ev.dispatch n :: rest) = rowsFlushed rest := rfl

theorem rowsFlushed_fail (n : String) (rest : List Ev) :
    rowsFlushed (Ev.fail n :: rest) = rowsFlushed rest := rfl

theorem rowsFlushed_flush (rest : List Ev) :
    rowsFlushed (Ev.flush :: rest) = rowsFlushed rest := rfl

theorem rowsFlushed_sleep (q : ℚ) (rest : List Ev) :
    rowsFlushed (Ev.sleep q :: rest) = rowsFlushed rest := rfl

theorem rowsFlushed_row_flush (r : QueryResult) (rest : List Ev) :
    rowsFlushed (Ev.row r :: Ev.flush :: rest) = rowsFlushed rest := rfl

theorem sleepSoon_fail (n : String) (rest : List Ev) :
    sleepSoon (Ev.fail n :: rest) = sleepSoon rest := rfl

theorem sleepSoon_row (r : QueryResult) (rest : List Ev) :
    sleepSoon (Ev.row r :: rest) = sleepSoon rest := rfl

theorem sleepSoon_flush (rest : List Ev) :
    sleepSoon (Ev.flush :: rest) = sleepSoon rest := rfl

theorem sleepSoon_sleep (q : ℚ) (rest : List Ev) :
    sleepSoon (Ev.sleep q :: rest) = true := rfl

theorem paced_dispatch (n : String) (rest : List Ev) :
    paced (Ev.dispatch n :: rest) = (sleepSoon rest && paced rest) := rfl

theorem paced_fail (n : String) (rest : List Ev) :
    paced (Ev.fail n :: rest) = paced rest := rfl

theorem paced_row (r : QueryResult) (rest : List Ev) :
    paced (Ev.row r :: rest) = paced rest := rfl

theorem paced_flush (rest : List Ev) :
    paced (Ev.flush :: rest) = paced rest := rfl

theorem paced_sleep (q : ℚ) (rest : List Ev) :
    paced (Ev.sleep q :: rest) = paced rest := rfl

/-! ## The structural lemma for the `esprober` loop

`send_queries_loop` executes exactly the break-free prefix of the query
list, emits one `queryBlock` per executed query, and ends with the duration
dictionary extended by exactly the successful observations, in order. -/

theorem send_loop_spec (deadline : Option ℚ) (clock : ℕ → ℚ)
    (exec : ℕ → Option (String × ℚ)) (interval Q : ℚ) (qs : List Query) :
    ∀ (k : ℕ) (m : DurMap),
      (∀ q ∈ qs, (findDur m q.name).isSome = true) →
      ∃ m2,
        appendResults m
            (successResultsFrom exec k (executedQueries deadline clock k qs)) = some m2 ∧
        send_queries_loop deadline clock exec interval Q qs k m
          = (blocksFrom exec interval Q k (executedQueries deadline clock k qs), some m2) := by
  induction qs with
  | nil => intro k m _; exact ⟨m, rfl, rfl⟩
  | cons q qs ih =>
    intro k m h
    cases hb : breakCond deadline (clock k) with
    | true =>
      refine ⟨m, ?_, ?_⟩
      · simp [executedQueries, hb, successResultsFrom, appendResults]
      · simp [send_queries_loop, executedQueries, hb, blocksFrom]
    | false =>
      cases hx : exec k with
      | none =>
        obtain ⟨m2, hap, hrun⟩ :=
          ih (k + 1) m (fun q' hq' => h q' (List.mem_cons_of_mem q hq'))
        refine ⟨m2, ?_, ?_⟩
        · simpa [executedQueries, hb, successResultsFrom, hx] using hap
        · simp [send_queries_loop, hb, hx, executedQueries, blocksFrom, queryBlock, hrun]
      | some p =>
        obtain ⟨ts, d⟩ := p
        obtain ⟨m1, hm1⟩ := appendDur_isSome (h q (List.mem_cons_self q qs)) d
        obtain ⟨m2, hap, hrun⟩ := ih (k + 1) m1 (fun q' hq' => by
          rw [findDur_appendDur_pres hm1]
          exact h q' (List.mem_cons_of_mem q hq'))
        refine ⟨m2, ?_, ?_⟩
        · simp [executedQueries, hb, successResultsFrom, hx, appendResults, hm1, hap]
        · simp [send_queries_loop, hb, hx, hm1, executedQueries, blocksFrom, queryBlock, hrun]

theorem executedQueries_none (clock : ℕ → ℚ) :
    ∀ (k : ℕ) (qs : List Query), executedQueries none clock k qs = qs := by
  intro k qs
  induction qs generalizing k with
  | nil => rfl
  | cons q qs ih => simp [executedQueries, breakCond, ih]

theorem executedNames_append (a b : List Ev) :
    executedNames (a ++ b) = executedNames a ++ executedNames b := by
  simp [executedNames]

theorem writtenRows_append (a b : List Ev) :
    writtenRows (a ++ b) = writtenRows a ++ writtenRows b := by
  simp [writtenRows]

theorem sleepsOf_append (a b : List Ev) :
    sleepsOf (a ++ b) = sleepsOf a ++ sleepsOf b := by
  simp [sleepsOf]

theorem executedNames_queryBlock (exec : ℕ → Option (String × ℚ))
    (interval Q : ℚ) (k : ℕ) (q : Query) :
    executedNames (queryBlock exec interval Q k q) = [q.name] := by
  cases hx : exec k with
  | none =>
    by_cases hi : 0 < interval <;>
      simp [queryBlock, sleepBlock, executedNames, hx, hi]
  | some p =>
    obtain ⟨ts, d⟩ := p
    by_cases hi : 0 < interval <;>
      simp [queryBlock, sleepBlock, executedNames, hx, hi]

theorem executedNames_blocksFrom (exec : ℕ → Option (String × ℚ))
    (interval Q : ℚ) :
    ∀ (k : ℕ) (qs : List Query),
      executedNames (blocksFrom exec interval Q k qs) = qs.map Query.name := by
  intro k qs
  induction qs generalizing k with
  | nil => rfl
  | cons q qs ih =>
    simp [blocksFrom, executedNames_append, executedNames_queryBlock, ih]

theorem writtenRows_queryBlock (exec : ℕ → Option (String × ℚ))
    (interval Q : ℚ) (k : ℕ) (q : Query) :
    writtenRows (queryBlock exec interval Q k q)
      = (match exec k with
         | some (ts, d) => [(⟨ts, q.name, d⟩ : QueryResult)]
         | none => []) := by
  cases hx : exec k with
  | none =>
    by_cases hi : 0 < interval <;>
      simp [queryBlock, sleepBlock, writtenRows, hx, hi]
  | some p =>
    obtain ⟨ts, d⟩ := p
    by_cases hi : 0 < interval <;>
      simp [queryBlock, sleepBlock, writtenRows, hx, hi]

theorem writtenRows_blocksFrom (exec : ℕ → Option (String × ℚ))
    (interval Q : ℚ) :
    ∀ (k : ℕ) (qs : List Query),
      writtenRows (blocksFrom exec interval Q k qs) = successResultsFrom exec k qs := by
  intro k qs
  induction qs generalizing k with
  | nil => rfl
  | cons q qs ih =>
    rw [blocksFrom, writtenRows_append, writtenRows_queryBlock, ih]
    cases hx : exec k with
    | none => simp [successResultsFrom, hx]
    | some p => obtain ⟨ts, d⟩ := p; simp [successResultsFrom, hx]

theorem sleepsOf_queryBlock (exec : ℕ → Option (String × ℚ))
    {interval : ℚ} (Q : ℚ) (k : ℕ) (q : Query) (hi : 0 < interval) :
    sleepsOf (queryBlock exec interval Q k q) = [Q] := by
  cases hx : exec k with
  | none => simp [queryBlock, sleepBlock, sleepsOf, hx, hi]
  | some p => obtain ⟨ts, d⟩ := p; simp [queryBlock, sleepBlock, sleepsOf, hx, hi]

theorem sleepsOf_blocksFrom (exec : ℕ → Option (String × ℚ))
    {interval : ℚ} (Q : ℚ) (hi : 0 < interval) :
    ∀ (k : ℕ) (qs : List Query),
      sleepsOf (blocksFrom exec interval Q k qs) = List.replicate qs.length Q := by
  intro k qs
  induction qs generalizing k with
  | nil => rfl
  | cons q qs ih =>
    rw [blocksFrom, sleepsOf_append, sleepsOf_queryBlock exec Q k q hi, ih]
    simp [List.replicate_succ]

theorem rowsFlushed_blocksFrom (exec : ℕ → Option (String × ℚ))
    (interval Q : ℚ) :
    ∀ (k : ℕ) (qs : List Query),
      rowsFlushed (blocksFrom exec interval Q k qs) = true := by
  intro k qs
  induction qs generalizing k with
  | nil => rfl
  | cons q qs ih =>
    rw [blocksFrom]
    cases hx : exec k with
    | none =>
      by_cases hi : 0 < interval <;>
        simp [queryBlock, sleepBlock, hx, hi, rowsFlushed_dispatch, rowsFlushed_fail,
          rowsFlushed_sleep, ih]
    | some p =>
      obtain ⟨ts, d⟩ := p
      by_cases hi : 0 < interval <;>
        simp [queryBlock, sleepBlock, hx, hi, rowsFlushed_dispatch, rowsFlushed_row_flush,
          rowsFlushed_flush, rowsFlushed_sleep, ih]

theorem paced_blocksFrom (exec : ℕ → Option (String × ℚ))
    {interval : ℚ} (Q : ℚ) (hi : 0 < interval) :
    ∀ (k : ℕ) (qs : List Query),
      paced (blocksFrom exec interval Q k qs) = true := by
  intro k qs
  induction qs generalizing k with
  | nil => rfl
  | cons q qs ih =>
    rw [blocksFrom]
    cases hx : exec k with
    | none =>
      simp [queryBlock, sleepBlock, hx, hi, paced_dispatch, paced_fail, paced_sleep,
        sleepSoon_fail, sleepSoon_sleep, ih]
    | some p =>
      obtain ⟨ts, d⟩ := p
      simp [queryBlock, sleepBlock, hx, hi, paced_dispatch, paced_row, paced_flush,
        paced_sleep, sleepSoon_row, sleepSoon_flush, sleepSoon_sleep, ih]

theorem readRows_map_toRow : ∀ rs : List QueryResult, readRows (rs.map toRow) = .ok rs := by
  intro rs
  induction rs with
  | nil => rfl
  | cons r rest ih => simp [toRow, readRows, ih, Except.map]

/-! ### Behaviour of `load_queries` on non-list iterables and unchecked values

The comprehension succeeds with zero queries on the empty object and the
empty string, fails on a non-empty object (its keys are strings, not
mappings), and accepts a non-string `name` value unchanged. -/

theorem load_queries_empty_object :
    load_queries (.parsed (.obj [])) = .ok [] := rfl

theorem load_queries_empty_string :
    load_queries (.parsed (.str "")) = .ok [] := rfl

theorem load_queries_nonempty_object_err :
    load_queries (.parsed (.obj [("k", Json.null)]))
      = .error "TypeError: argument after ** must be a mapping" := rfl

theorem load_queries_nonstring_name :
    load_queries (.parsed (.arr [Json.obj [("name", Json.num 5),
        ("path", Json.str "p"), ("body", Json.obj [])]]))
      = .ok [⟨Json.num 5, Json.str "p", Json.obj []⟩] := rfl

end Esprober

/-! ## Lemmas about the `prober.py` loop -/

namespace Prober

open Esprober (Ev DurMap findDur appendDur appendDur_isSome findDur_appendDur_pres
  executedNames sleepsOf paced sleepSoon executedNames_append sleepsOf_append
  paced_sleep sleepSoon_sleep paced_dispatch)

theorem isOk_exists {o : POutcome} (h : o.isOk = true) : ∃ d, o = .ok d := by
  cases o with
  | ok d => exact ⟨d, rfl⟩
  | timeout => simp [POutcome.isOk] at h
  | failure => simp [POutcome.isOk] at h

theorem sweepRun_ok (exec : ℕ → POutcome) (interval : ℚ)
    (hok : ∀ i, (exec i).isOk = true) :
    ∀ (names : List String) (k : ℕ) (m : DurMap),
      (∀ n ∈ names, (findDur m n).isSome = true) →
      ∃ m1, sweepRun exec interval names k m = (okSweepEvents interval names, some m1, false)
        ∧ ∀ n, (findDur m1 n).isSome = (findDur m n).isSome := by
  intro names
  induction names with
  | nil => intro k m _; exact ⟨m, rfl, fun n => rfl⟩
  | cons n ns ih =>
    intro k m h
    obtain ⟨d, hd⟩ := isOk_exists (hok k)
    obtain ⟨m1, hm1⟩ := appendDur_isSome (h n (List.mem_cons_self n ns)) d
    obtain ⟨m2, hrun, hpres⟩ := ih (k + 1) m1 (fun n' hn' => by
      rw [findDur_appendDur_pres hm1]
      exact h n' (List.mem_cons_of_mem n hn'))
    refine ⟨m2, ?_, fun n' => ?_⟩
    · simp [sweepRun, hd, hm1, hrun, okSweepEvents]
    · rw [hpres n', findDur_appendDur_pres hm1]

theorem proberMain_ok (exec : ℕ → POutcome) (clock : ℕ → ℚ) (interval : ℚ)
    (names : List String) (hok : ∀ i, (exec i).isOk = true) :
    ∀ (fuel j k : ℕ) (m : DurMap),
      (∀ n ∈ names, (findDur m n).isSome = true) →
      ∃ m2, proberMain exec clock none interval names fuel j k m
          = (okRunEvents interval names fuel, some m2, .running)
        ∧ ∀ n, (findDur m2 n).isSome = (findDur m n).isSome := by
  intro fuel
  induction fuel with
  | zero => intro j k m _; exact ⟨m, rfl, fun n => rfl⟩
  | succ fuel ih =>
    intro j k m h
    obtain ⟨m1, hsw, hpres⟩ := sweepRun_ok exec interval hok names k m h
    obtain ⟨m2, hrun, hpres2⟩ := ih (j + 1) (k + names.length) m1 (fun n hn => by
      rw [hpres n]; exact h n hn)
    refine ⟨m2, ?_, fun n => by rw [hpres2 n, hpres n]⟩
    simp [proberMain, stopCond, hsw, hrun, okRunEvents]

theorem executedNames_dispatch_cons (n : String) (evs : List Ev) :
    executedNames (Ev.dispatch n :: evs) = n :: executedNames evs := rfl

theorem executedNames_sleep_cons (q : ℚ) (evs : List Ev) :
    executedNames (Ev.sleep q :: evs) = executedNames evs := rfl

theorem sleepsOf_dispatch_cons (n : String) (evs : List Ev) :
    sleepsOf (Ev.dispatch n :: evs) = sleepsOf evs := rfl

theorem sleepsOf_sleep_cons (q : ℚ) (evs : List Ev) :
    sleepsOf (Ev.sleep q :: evs) = q :: sleepsOf evs := rfl

theorem executedNames_okSweepEvents (interval : ℚ) :
    ∀ names : List String, executedNames (okSweepEvents interval names) = names := by
  intro names
  induction names with
  | nil => rfl
  | cons n ns ih =>
    rw [okSweepEvents, executedNames_dispatch_cons, executedNames_sleep_cons, ih]

theorem executedNames_okRunEvents (interval : ℚ) (names : List String) :
    ∀ s : ℕ, executedNames (okRunEvents interval names s) = repeatList names s := by
  intro s
  induction s with
  | zero => rfl
  | succ s ih =>
    simp [okRunEvents, repeatList, executedNames_append,
      executedNames_okSweepEvents, ih]

theorem sleepsOf_okSweepEvents (interval : ℚ) :
    ∀ names : List String,
      sleepsOf (okSweepEvents interval names) = List.replicate names.length interval := by
  intro names
  induction names with
  | nil => rfl
  | cons n ns ih =>
    rw [okSweepEvents, sleepsOf_dispatch_cons, sleepsOf_sleep_cons, ih]
    simp [List.replicate_succ]

theorem sleepsOf_okRunEvents (interval : ℚ) (names : List String) :
    ∀ s : ℕ,
      sleepsOf (okRunEvents interval names s)
        = List.replicate (s * names.length) interval := by
  intro s
  induction s with
  | zero => simp [okRunEvents, sleepsOf]
  | succ s ih =>
    rw [okRunEvents, sleepsOf_append, sleepsOf_okSweepEvents, ih,
      ← List.replicate_add, Nat.succ_mul, Nat.add_comm]

theorem paced_okSweepEvents_append (interval : ℚ) :
    ∀ (names : List String) (rest : List Ev),
      paced rest = true → paced (okSweepEvents interval names ++ rest) = true := by
  intro names
  induction names with
  | nil => intro rest h; simpa [okSweepEvents] using h
  | cons n ns ih =>
    intro rest h
    have tail := ih rest h
    simp only [okSweepEvents, List.cons_append, paced_dispatch, paced_sleep,
      sleepSoon_sleep, Bool.true_and]
    exact tail

theorem paced_okRunEvents (interval : ℚ) (names : List String) :
    ∀ s : ℕ, paced (okRunEvents interval names s) = true := by
  intro s
  induction s with
  | zero => rfl
  | succ s ih => exact paced_okSweepEvents_append interval names _ ih

end Prober

/-! ## Concrete fixtures for witnesses and counterexamples -/

open Esprober (Query QueryResult DurMap FileRow Ev findDur send_queries_loop
  blocksFrom executedQueries successResultsFrom appendResults executedNames
  writtenRows sleepsOf rowsFlushed paced)

/-- A two-query list and a duration dictionary seeded for it. -/
def qa : Query := ⟨"a", "pa", Json.null⟩

def qb : Query := ⟨"b", "pb", Json.null⟩

def m0 : DurMap := [("a", []), ("b", [])]

/-- Executor oracle: every call succeeds with duration 1. -/
def execOk : ℕ → Option (String × ℚ) := fun _ => some ("t", 1)

/-- Executor oracle: the first call raises, later ones succeed. -/
def execF : ℕ → Option (String × ℚ) := fun k => if k = 0 then none else some ("t", 1)

/-- `prober.py` executor oracle: the first call times out, later ones succeed. -/
def execT : ℕ → Prober.POutcome :=
  fun k => if k = 0 then Prober.POutcome.timeout else Prober.POutcome.ok 1

/-- `prober.py` executor oracle: every call succeeds with duration 1. -/
def pOk : ℕ → Prober.POutcome := fun _ => Prober.POutcome.ok 1

/-! ## The claims -/

/-- C1: the claim says the loop stops exactly once the configured total
test-duration has elapsed, and never before.  The code of
`esprober.send_queries` has the comparison inverted
(`if test_deadline and time.monotonic() < test_deadline: break`), so — as
this evaluation of the embedding shows — with a 60-second deadline and the
clock still well short of it the loop breaks before dispatching anything,
while with the clock past the deadline it happily executes every query. -/
theorem C1_duration_check_inverted :
    executedNames (send_queries_loop (some 60) (fun _ => 1) execOk 1 1
        [qa, qb] 0 m0).1 = []
    ∧ executedNames (send_queries_loop (some 60) (fun _ => 100) execOk 1 1
        [qa, qb] 0 m0).1 = ["a", "b"] := by
  decide

/-- C2 (amended): in `esprober.send_queries`, a failed query execution
yields no row, leaves the duration dictionary untouched by that
observation, and never shortens the sweep: with no deadline the loop
dispatches every query in list order whatever the outcomes, the rows
written are exactly the successful results, and the final dictionary is the
initial one extended by exactly the successful durations.  (In `prober.py`
a failure instead aborts the run, see the counterexample.) -/
theorem C2_failure_isolation (clock : ℕ → ℚ) (exec : ℕ → Option (String × ℚ))
    (interval Q : ℚ) (qs : List Query) (m : DurMap)
    (h : ∀ q ∈ qs, (findDur m q.name).isSome = true) :
    ∃ m2,
      send_queries_loop none clock exec interval Q qs 0 m
          = (blocksFrom exec interval Q 0 qs, some m2)
        ∧ appendResults m (successResultsFrom exec 0 qs) = some m2
        ∧ executedNames (blocksFrom exec interval Q 0 qs) = qs.map Query.name
        ∧ writtenRows (blocksFrom exec interval Q 0 qs)
            = successResultsFrom exec 0 qs := by
  obtain ⟨m2, hap, hrun⟩ :=
    Esprober.send_loop_spec none clock exec interval Q qs 0 m h
  rw [Esprober.executedQueries_none] at hap hrun
  exact ⟨m2, hrun, hap, Esprober.executedNames_blocksFrom exec interval Q 0 qs,
    Esprober.writtenRows_blocksFrom exec interval Q 0 qs⟩

/-- C2 witness: a run whose first query fails and second succeeds. -/
theorem C2_failure_isolation_witness :
    ∃ m2,
      send_queries_loop none (fun _ => 0) execF 1 1 [qa, qb] 0 m0
          = (blocksFrom execF 1 1 0 [qa, qb], some m2)
        ∧ appendResults m0 (successResultsFrom execF 0 [qa, qb]) = some m2
        ∧ executedNames (blocksFrom execF 1 1 0 [qa, qb])
            = [qa, qb].map Query.name
        ∧ writtenRows (blocksFrom execF 1 1 0 [qa, qb])
            = successResultsFrom execF 0 [qa, qb] :=
  C2_failure_isolation (fun _ => 0) execF 1 1 [qa, qb] m0 (by decide)

/-- C2 counterexample: in `prober.py`, a connection timeout on the first
query makes `search` call `exit(1)`: the run is aborted and the second
query of the sweep is never dispatched — refuting "a single query's failure
never aborts the loop or skips remaining queries" for this variant. -/
theorem C2_prober_timeout_aborts :
    (Prober.proberMain execT (fun _ => 0) none 1 ["a", "b"] 1 0 0 m0).2.2
        = Prober.PStatus.aborted
    ∧ executedNames (Prober.proberMain execT (fun _ => 0) none 1
        ["a", "b"] 1 0 0 m0).1 = ["a"] := by
  decide

/-- C3 (amended): with no total test-duration, `prober.main` runs sweep
after sweep indefinitely — after any number of sweeps the loop is still
running and the dispatched names are the query list repeated in order —
whereas `esprober.send_queries` iterates the query list once: each query is
dispatched exactly once, in list order, and the run then ends (see the
counterexample for the single-sweep behaviour). -/
theorem C3_sweep_structure :
    (∀ (exec : ℕ → Prober.POutcome) (clock : ℕ → ℚ) (interval : ℚ)
        (names : List String) (fuel j k : ℕ) (m : DurMap),
        (∀ i, (exec i).isOk = true) →
        (∀ n ∈ names, (findDur m n).isSome = true) →
        ∃ m2, Prober.proberMain exec clock none interval names fuel j k m
            = (Prober.okRunEvents interval names fuel, some m2,
                Prober.PStatus.running)
          ∧ executedNames (Prober.okRunEvents interval names fuel)
              = Prober.repeatList names fuel)
    ∧ (∀ (clock : ℕ → ℚ) (exec : ℕ → Option (String × ℚ)) (interval Q : ℚ)
        (qs : List Query) (m : DurMap),
        (∀ q ∈ qs, (findDur m q.name).isSome = true) →
        executedNames (send_queries_loop none clock exec interval Q qs 0 m).1
          = qs.map Query.name) := by
  constructor
  · intro exec clock interval names fuel j k m hok h
    obtain ⟨m2, hrun, _⟩ :=
      Prober.proberMain_ok exec clock interval names hok fuel j k m h
    exact ⟨m2, hrun, Prober.executedNames_okRunEvents interval names fuel⟩
  · intro clock exec interval Q qs m h
    obtain ⟨m2, _, hrun⟩ :=
      Esprober.send_loop_spec none clock exec interval Q qs 0 m h
    rw [Esprober.executedQueries_none] at hrun
    rw [hrun]
    exact Esprober.executedNames_blocksFrom exec interval Q 0 qs

/-- C3 witness: two all-successful sweeps of `prober.main` over two names,
and one pass of `esprober.send_queries` over two queries. -/
theorem C3_sweep_structure_witness :
    (∃ m2, Prober.proberMain pOk (fun _ => 0) none 1 ["a", "b"] 2 0 0 m0
        = (Prober.okRunEvents 1 ["a", "b"] 2, some m2, Prober.PStatus.running)
      ∧ executedNames (Prober.okRunEvents 1 ["a", "b"] 2)
          = Prober.repeatList ["a", "b"] 2)
    ∧ executedNames (send_queries_loop none (fun _ => 0) execOk 1 1
        [qa, qb] 0 m0).1 = [qa, qb].map Query.name :=
  ⟨C3_sweep_structure.1 pOk (fun _ => 0) 1 ["a", "b"] 2 0 0 m0
      (fun _ => rfl) (by decide),
    C3_sweep_structure.2 (fun _ => 0) execOk 1 1 [qa, qb] m0 (by decide)⟩

/-- C3 counterexample: with no deadline and both queries succeeding,
`esprober.send_queries` produces this complete, finite trace — each query
runs exactly once and no second sweep begins after the last query, contrary
to the claim that the executed query-name sequence is the list order
repeated without bound. -/
theorem C3_single_sweep_counterexample :
    (send_queries_loop none (fun _ => 0) execOk 1 1 [qa, qb] 0 m0).1
        = [Ev.dispatch "a", Ev.row ⟨"t", "a", 1⟩, Ev.flush, Ev.sleep 1,
           Ev.dispatch "b", Ev.row ⟨"t", "b", 1⟩, Ev.flush, Ev.sleep 1]
    ∧ executedNames (send_queries_loop none (fun _ => 0) execOk 1 1
        [qa, qb] 0 m0).1 = ["a", "b"] := by
  decide

/-- C4: in any run of the `esprober` loop, the rows written are exactly the
results of the successful executions among the queries the loop reaches —
one row per success, in execution order — and every row event is
immediately followed by a flush, hence the row is serialised and flushed
before the (later) sleep and next dispatch. -/
theorem C4_exactly_once_append (deadline : Option ℚ) (clock : ℕ → ℚ)
    (exec : ℕ → Option (String × ℚ)) (interval Q : ℚ) (qs : List Query)
    (m : DurMap) (h : ∀ q ∈ qs, (findDur m q.name).isSome = true) :
    writtenRows (send_queries_loop deadline clock exec interval Q qs 0 m).1
        = successResultsFrom exec 0 (executedQueries deadline clock 0 qs)
      ∧ rowsFlushed (send_queries_loop deadline clock exec interval Q qs 0 m).1
        = true := by
  obtain ⟨m2, _, hrun⟩ :=
    Esprober.send_loop_spec deadline clock exec interval Q qs 0 m h
  rw [hrun]
  exact ⟨Esprober.writtenRows_blocksFrom exec interval Q 0 _,
    Esprober.rowsFlushed_blocksFrom exec interval Q 0 _⟩

/-- C4 witness: one failing and one successful query, no deadline. -/
theorem C4_exactly_once_append_witness :
    writtenRows (send_queries_loop none (fun _ => 0) execF 1 1 [qa, qb] 0 m0).1
        = successResultsFrom execF 0 (executedQueries none (fun _ => 0) 0 [qa, qb])
      ∧ rowsFlushed (send_queries_loop none (fun _ => 0) execF 1 1
          [qa, qb] 0 m0).1 = true :=
  C4_exactly_once_append none (fun _ => 0) execF 1 1 [qa, qb] m0 (by decide)

/-- C5: for a nonempty recorded list `average` is the arithmetic mean
(sum divided by length), for the empty list it is exactly `0`, and the two
source files define the same function. -/
theorem C5_average_spec :
    (∀ l : List ℚ, l ≠ [] → Esprober.average l = l.sum / (l.length : ℚ))
    ∧ Esprober.average [] = 0
    ∧ (∀ l : List ℚ, Prober.average l = Esprober.average l) := by
  refine ⟨fun l h => ?_, rfl, fun l => rfl⟩
  simp [Esprober.average, h]

/-- C5 witness: the mean of three concrete durations. -/
theorem C5_average_spec_witness :
    Esprober.average [1, 2, 4] = ([1, 2, 4] : List ℚ).sum
      / ((([1, 2, 4] : List ℚ).length : ℕ) : ℚ) :=
  C5_average_spec.1 [1, 2, 4] (by decide)

/-- C6: writing any finite result list to a fresh (nonexistent) file and
reading the file back yields exactly the written results, field by field,
in write order. -/
theorem C6_ledger_round_trip (rs : List QueryResult) :
    Esprober.read_results (some (Esprober.write_results none rs)) = .ok rs := by
  have hw : Esprober.write_results none rs = FileRow.header :: rs.map Esprober.toRow := by
    simp [Esprober.write_results]
  rw [hw]
  exact Esprober.readRows_map_toRow rs

/-- C7: reading a nonexistent results file yields the empty sequence (no
error); appending one result to a nonexistent file creates it as the header
row followed by exactly that one data row; and appending to an existing
file appends data rows only — the header is never rewritten. -/
theorem C7_header_on_creation_only :
    Esprober.read_results none = .ok []
    ∧ (∀ r : QueryResult,
        Esprober.write_results none [r] = [FileRow.header, Esprober.toRow r])
    ∧ (∀ (rows : List FileRow) (rs : List QueryResult),
        Esprober.write_results (some rows) rs = rows ++ rs.map Esprober.toRow) := by
  refine ⟨rfl, fun r => ?_, fun rows rs => ?_⟩
  · simp [Esprober.write_results]
  · simp [Esprober.write_results]

/-- C8: the configured interval is at least 1 second; in any `esprober`
run with a positive interval every executed query — successful or failed —
is followed by exactly one sleep of the global `QUERY_INTERVAL` before the
next dispatch and before the trace ends (so also after the last query of
the sweep); and in `prober.main` every all-successful run sleeps the
interval once per executed query, between any two dispatches and after the
last one. -/
theorem C8_unconditional_pacing :
    (∀ env : Option ℚ, 1 ≤ Esprober.queryInterval env)
    ∧ (∀ (deadline : Option ℚ) (clock : ℕ → ℚ)
        (exec : ℕ → Option (String × ℚ)) (interval Q : ℚ) (qs : List Query)
        (m : DurMap), 0 < interval →
        (∀ q ∈ qs, (findDur m q.name).isSome = true) →
        sleepsOf (send_queries_loop deadline clock exec interval Q qs 0 m).1
            = List.replicate (executedQueries deadline clock 0 qs).length Q
          ∧ paced (send_queries_loop deadline clock exec interval Q qs 0 m).1
            = true)
    ∧ (∀ (exec : ℕ → Prober.POutcome) (clock : ℕ → ℚ) (interval : ℚ)
        (names : List String) (fuel j k : ℕ) (m : DurMap),
        (∀ i, (exec i).isOk = true) →
        (∀ n ∈ names, (findDur m n).isSome = true) →
        sleepsOf (Prober.proberMain exec clock none interval names fuel j k m).1
            = List.replicate (fuel * names.length) interval
          ∧ paced (Prober.proberMain exec clock none interval names fuel j k m).1
            = true) := by
  refine ⟨fun env => le_max_left 1 _, ?_, ?_⟩
  · intro deadline clock exec interval Q qs m hi h
    obtain ⟨m2, _, hrun⟩ :=
      Esprober.send_loop_spec deadline clock exec interval Q qs 0 m h
    rw [hrun]
    exact ⟨Esprober.sleepsOf_blocksFrom exec Q hi 0 _,
      Esprober.paced_blocksFrom exec Q hi 0 _⟩
  · intro exec clock interval names fuel j k m hok h
    obtain ⟨m2, hrun, _⟩ :=
      Prober.proberMain_ok exec clock interval names hok fuel j k m h
    rw [hrun]
    exact ⟨Prober.sleepsOf_okRunEvents interval names fuel,
      Prober.paced_okRunEvents interval names fuel⟩

/-- C8 witness: the default interval, a failing-then-succeeding `esprober`
run, and a two-sweep all-successful `prober` run. -/
theorem C8_unconditional_pacing_witness :
    (1 ≤ Esprober.queryInterval none)
    ∧ (sleepsOf (send_queries_loop none (fun _ => 0) execF 1 1 [qa, qb] 0 m0).1
          = List.replicate (executedQueries none (fun _ => 0) 0 [qa, qb]).length 1
        ∧ paced (send_queries_loop none (fun _ => 0) execF 1 1 [qa, qb] 0 m0).1
          = true)
    ∧ (sleepsOf (Prober.proberMain pOk (fun _ => 0) none 1 ["a", "b"] 2 0 0 m0).1
          = List.replicate (2 * (["a", "b"] : List String).length) 1
        ∧ paced (Prober.proberMain pOk (fun _ => 0) none 1 ["a", "b"] 2 0 0 m0).1
          = true) :=
  ⟨C8_unconditional_pacing.1 none,
    C8_unconditional_pacing.2.1 none (fun _ => 0) execF 1 1 [qa, qb] m0
      (by decide) (by decide),
    C8_unconditional_pacing.2.2 pOk (fun _ => 0) 1 ["a", "b"] 2 0 0 m0
      (fun _ => rfl) (by decide)⟩

/-- C9 (amended): `load_queries` fails whenever the source file is missing
or malformed (the text does not parse as JSON), and on success returns the
ordered list of query definitions in source order; it does NOT reject a
query with an empty name (see the counterexample). -/
theorem C9_load_queries_spec :
    (∃ e, Esprober.load_queries .missing = .error e)
    ∧ (∃ e, Esprober.load_queries .malformed = .error e)
    ∧ (∀ rqs : List Esprober.RawQuery,
        Esprober.load_queries (.parsed (.arr (rqs.map Esprober.encodeRawQuery)))
          = .ok rqs) := by
  refine ⟨⟨_, rfl⟩, ⟨_, rfl⟩, fun rqs => ?_⟩
  induction rqs with
  | nil => rfl
  | cons q qs ih =>
    simp only [Esprober.load_queries, List.map_cons] at ih ⊢
    simp [Esprober.loadItems, Esprober.encodeRawQuery, Esprober.parseQueryObj,
      Esprober.lookupField, ih, Except.map]

/-- C9 counterexample: a well-formed document containing a query whose
name is the empty string loads successfully — `Query(**d)` performs no
emptiness check — refuting the claim that such a source fails to load. -/
theorem C9_empty_name_accepted :
    Esprober.load_queries (.parsed (.arr [Json.obj
        [("name", Json.str ""), ("path", Json.str "p"),
          ("body", Json.obj [])]]))
      = .ok [⟨Json.str "", Json.str "p", Json.obj []⟩] := by
  rfl

/-- C10: seeding the duration dictionary from the results file succeeds
exactly when every row's name is among the loaded query names; if any row
carries an unknown name, the seeding loop raises `KeyError` and `main`
aborts before the probe loop dispatches a single query. -/
theorem C10_seed_requires_known_names (queries : List Query)
    (deadline : Option ℚ) (clock : ℕ → ℚ) (exec : ℕ → Option (String × ℚ))
    (interval Q : ℚ) :
    (∀ rows : List QueryResult,
      (∀ r ∈ rows, r.name ∈ queries.map Query.name) →
      ∃ m, Esprober.seedDurations queries rows = .ok m)
    ∧ (∀ rows : List QueryResult,
      (∃ r ∈ rows, r.name ∉ queries.map Query.name) →
      ∃ e, Esprober.seedDurations queries rows = .error e
        ∧ Esprober.main_run queries
            (some (FileRow.header :: rows.map Esprober.toRow)) deadline clock
            exec interval Q = .error e) := by
  constructor
  · intro rows h
    exact Esprober.seedLoop_ok rows (Esprober.initMap queries) (fun r hr => by
      rw [Esprober.findDur_initMap]
      exact h r hr)
  · intro rows h
    obtain ⟨r, hr, hbad⟩ := h
    have hnone : (findDur (Esprober.initMap queries) r.name).isSome = false := by
      rw [Bool.eq_false_iff]
      intro hsome
      exact hbad ((Esprober.findDur_initMap queries r.name).mp hsome)
    obtain ⟨e, he⟩ :=
      Esprober.seedLoop_err rows (Esprober.initMap queries) ⟨r, hr, hnone⟩
    have h1 : Esprober.read_results
        (some (FileRow.header :: rows.map Esprober.toRow)) = .ok rows :=
      Esprober.readRows_map_toRow rows
    refine ⟨e, he, ?_⟩
    simp [Esprober.main_run, h1, Esprober.seedDurations, he]

/-- C10 witness: a seeding that succeeds (row names among the query names)
and one that raises `KeyError` (a row for an unknown name). -/
theorem C10_seed_requires_known_names_witness :
    (∃ m, Esprober.seedDurations [qa, qb]
        [(⟨"t", "a", 2⟩ : QueryResult)] = .ok m)
    ∧ (∃ e, Esprober.seedDurations [qa, qb]
          [(⟨"t", "zz", 2⟩ : QueryResult)] = .error e
        ∧ Esprober.main_run [qa, qb]
            (some (FileRow.header
              :: [(⟨"t", "zz", 2⟩ : QueryResult)].map Esprober.toRow))
            none (fun _ => 0) execOk 1 1 = .error e) :=
  ⟨(C10_seed_requires_known_names [qa, qb] none (fun _ => 0) execOk 1 1).1
      [⟨"t", "a", 2⟩] (by decide),
    (C10_seed_requires_known_names [qa, qb] none (fun _ => 0) execOk 1 1).2
      [⟨"t", "zz", 2⟩] (by decide)⟩
